import Mathlib

/-!
# Verification of the ffmpeg-ts media-graph compiler

A shallow embedding of the media-graph data model (`src/ast/types.ts`,
`src/ast/video-filters.ts`, `src/ast/audio-filters.ts`), the graph
introspection helpers (`src/ast/graph.ts`), the validator
(`src/ast/validation.ts`), the filter serializers
(`src/compiler/filter-serializers.ts`) and the two compilers
(`src/compiler/simple-compiler.ts`, `src/compiler/complex-compiler.ts`,
`src/compiler/index.ts`).

Modelling conventions:
* JavaScript numbers are modelled as `ℚ` (every numeric comparison in the
  source is an exact comparison, and all doubles occurring in the claims
  are rationals).  `numStr` renders an integral rational the way JS
  renders an integral double (no fractional part); non-integral values
  are rendered as `num/den`, which no theorem below depends on.
* Optional boolean fields are modelled as `Bool`; the source only ever
  reads them through JS truthiness, under which `undefined` and `false`
  coincide.  Optional string fields keep `Option String`, and the
  truthiness test of the source additionally treats `""` as absent.
* JS `Set` (insertion ordered) is modelled as a duplicate-free
  `List String` built with `addUnique`.
* Mutable `args.push` sequences are modelled as list concatenation in the
  exact push order of the source.
-/

namespace FfmpegTs

/-- The single-quote character (codepoint 39), written via `Char.ofNat`. -/
def quoteChar : Char := Char.ofNat 39

/-- The backslash character (codepoint 92). -/
def backslashChar : Char := Char.ofNat 92

/-- `Array.prototype.join(sep)` on a list of strings. -/
def joinSep (sep : String) : List String → String
  | [] => ""
  | [x] => x
  | x :: xs => x ++ sep ++ joinSep sep xs

/-- JS template-literal rendering of a number: integral doubles print with
no fractional part (`5 ↦ "5"`, `-2 ↦ "-2"`). -/
def numStr (q : ℚ) : String :=
  if q.den = 1 then toString q.num else toString q.num ++ "/" ++ toString q.den

/-- `Expr` from `src/utils/types.ts`: a numeric parameter or an
engine-formula string. -/
inductive Expr where
  | num (q : ℚ)
  | str (s : String)
deriving DecidableEq, Repr

/-- `InputSource`: a path/URL or a readable stream. -/
inductive InputSource where
  | path (p : String)
  | stream
deriving DecidableEq, Repr

/-- `OutputDestination`: a path or a writable stream. -/
inductive OutputDestination where
  | path (p : String)
  | stream
deriving DecidableEq, Repr

/-- `VideoFilter` from `src/ast/video-filters.ts` (closed tagged union). -/
inductive VideoFilter where
  | scale (width height : Option ℚ) (algorithm forceOriginalAspectRatio : Option String)
  | crop (width height : Expr) (x y : Option Expr)
  | fps (value : ℚ) (round : Option String)
  | trim (start end_ duration : Option ℚ)
  | fade (type_ : String) (startTime duration : ℚ) (color : Option String)
  | rotate (angle : Expr) (outputWidth outputHeight : Option Expr) (fillColor : Option String)
  | flip (direction : String)
  | transpose (direction : ℚ)
  | overlay (inputRef : String) (x y : Expr) (enableAlpha shortest : Bool)
  | pad (width height : Expr) (x y : Option Expr) (color : Option String)
  | setsar (sar : Expr)
  | setdar (dar : Expr)
  | format (pixelFormats : List String)
deriving DecidableEq, Repr

/-- `AudioFilter` from `src/ast/audio-filters.ts` (closed tagged union). -/
inductive AudioFilter where
  | volume (value : Expr) (precision : Option String)
  | normalize (type_ : String)
      (targetLoudness loudnessRange truePeak frameLength gaussSize : Option ℚ)
  | afade (type_ : String) (startTime duration : ℚ) (curve : Option String)
  | atrim (start end_ duration : Option ℚ)
  | aresample (sampleRate : ℚ)
  | channelmap (map : String) (channelLayout : Option String)
  | channelmix (layout : String)
  | adelay (delays : String)
  | highpass (frequency : ℚ) (poles width : Option ℚ) (widthType : Option String)
  | lowpass (frequency : ℚ) (poles width : Option ℚ) (widthType : Option String)
  | equalizer (frequency width : ℚ) (widthType : Option String) (gain : ℚ)
deriving DecidableEq, Repr

/-- `InputOptions` from `src/ast/types.ts`. -/
structure InputOptions where
  format : Option String := none
  seekTo : Option ℚ := none
  loop : Option ℚ := none
  frameRate : Option ℚ := none
  duration : Option ℚ := none
deriving DecidableEq, Repr

/-- `MediaInput` from `src/ast/types.ts`. -/
structure MediaInput where
  id : String
  source : InputSource
  options : Option InputOptions := none
deriving DecidableEq, Repr

/-- `VideoStream` from `src/ast/types.ts`. -/
structure VideoStream where
  inputRef : String
  streamIndex : Option ℚ := none
  filters : List VideoFilter
  disabled : Bool := false
deriving DecidableEq, Repr

/-- `AudioStream` from `src/ast/types.ts`. -/
structure AudioStream where
  inputRef : String
  streamIndex : Option ℚ := none
  filters : List AudioFilter
  disabled : Bool := false
deriving DecidableEq, Repr

/-- A codec-specific extra option value (`string | number | boolean`). -/
inductive OptVal where
  | str (s : String)
  | num (q : ℚ)
  | bool (b : Bool)
deriving DecidableEq, Repr

/-- `VideoCodecConfig` from `src/ast/types.ts`; codec names and enum-like
string unions are modelled as `String`. -/
structure VideoCodecConfig where
  codec : String
  bitrate : Option String := none
  maxBitrate : Option String := none
  bufferSize : Option String := none
  crf : Option ℚ := none
  preset : Option String := none
  profile : Option String := none
  pixelFormat : Option String := none
  pass : Option ℚ := none
  options : Option (List (String × OptVal)) := none
deriving DecidableEq, Repr

/-- `AudioCodecConfig` from `src/ast/types.ts`. -/
structure AudioCodecConfig where
  codec : String
  bitrate : Option String := none
  sampleRate : Option ℚ := none
  channels : Option ℚ := none
  options : Option (List (String × OptVal)) := none
deriving DecidableEq, Repr

/-- `OutputFlags` from `src/ast/types.ts`. -/
structure OutputFlags where
  fastStart : Bool := false
  shortest : Bool := false
  mapAll : Bool := false
deriving DecidableEq, Repr

/-- `OutputConfig` from `src/ast/types.ts`; the metadata record keeps its
JS object insertion order. -/
structure OutputConfig where
  destination : OutputDestination
  format : Option String := none
  video : Option VideoCodecConfig := none
  audio : Option AudioCodecConfig := none
  metadata : Option (List (String × String)) := none
  flags : Option OutputFlags := none
deriving DecidableEq, Repr

/-- `GlobalOptions` from `src/ast/types.ts`. -/
structure GlobalOptions where
  threads : Option ℚ := none
  overwrite : Bool := false
  logLevel : Option String := none
  hwAccel : Option String := none
deriving DecidableEq, Repr

/-- `MediaGraph` from `src/ast/types.ts`. -/
structure MediaGraph where
  inputs : List MediaInput
  videoStreams : List VideoStream
  audioStreams : List AudioStream
  output : OutputConfig
  options : GlobalOptions
deriving DecidableEq, Repr

/-- `createMediaGraph()` from `src/ast/types.ts`. -/
def createMediaGraph : MediaGraph :=
  { inputs := []
    videoStreams := []
    audioStreams := []
    output := { destination := .path "" }
    options := { overwrite := true } }

/-! ## Graph introspection (`src/ast/graph.ts`) -/

/-- Is this video filter the overlay variant? -/
def VideoFilter.isOverlay : VideoFilter → Bool
  | .overlay .. => true
  | _ => false

/-- JS `Set.add`: append unless already present (insertion order kept). -/
def addUnique (l : List String) (x : String) : List String :=
  if x ∈ l then l else l ++ [x]

/-- `getInputIds(graph)`: the set of input ids, in insertion order. -/
def getInputIds (g : MediaGraph) : List String :=
  g.inputs.foldl (fun acc i => addUnique acc i.id) []

/-- `getReferencedInputs(graph)`: every stream's `inputRef` plus every
overlay target, in the iteration order of the source. -/
def getReferencedInputs (g : MediaGraph) : List String :=
  let afterVideo := g.videoStreams.foldl
    (fun acc s =>
      let acc1 := addUnique acc s.inputRef
      s.filters.foldl
        (fun a f =>
          match f with
          | .overlay r _ _ _ _ => addUnique a r
          | _ => a)
        acc1)
    []
  g.audioStreams.foldl (fun acc s => addUnique acc s.inputRef) afterVideo

/-- Worker for `getInputIndex`: `Array.prototype.findIndex` semantics. -/
def findIdxGo (id : String) : List MediaInput → Int → Int
  | [], _ => -1
  | i :: rest, n => if i.id = id then n else findIdxGo id rest (n + 1)

/-- `getInputIndex(graph, id)`: positional index of the input with this id,
`-1` when absent (JS `findIndex`). -/
def getInputIndex (g : MediaGraph) (id : String) : Int :=
  findIdxGo id g.inputs 0

/-- `hasVideoOutput(graph)`: some non-disabled video stream exists. -/
def hasVideoOutput (g : MediaGraph) : Bool :=
  g.videoStreams.any (fun s => !s.disabled)

/-- `hasAudioOutput(graph)`: some non-disabled audio stream exists. -/
def hasAudioOutput (g : MediaGraph) : Bool :=
  g.audioStreams.any (fun s => !s.disabled)

/-- `requiresComplexFilter(graph)` from `src/ast/graph.ts`: the complexity
classifier deciding between `-filter_complex` and `-vf`/`-af`. -/
def requiresComplexFilter (g : MediaGraph) : Bool :=
  if g.inputs.length > 1 then true
  else if g.videoStreams.any (fun s => s.filters.any (fun f => f.isOverlay)) then true
  else if g.videoStreams.length > 1 || g.audioStreams.length > 1 then true
  else false

/-! ## Filter serializers (`src/compiler/filter-serializers.ts`) -/

/-- `serializeExpr`: numbers render as decimals, formula strings pass
through unescaped. -/
def serializeExpr : Expr → String
  | .num q => numStr q
  | .str s => s

/-- First stage of `escapeValue`: `replace(/\\/g, "\\\\")`. -/
def escSlash : List Char → List Char
  | [] => []
  | c :: rest =>
    (if c = backslashChar then [backslashChar, backslashChar] else [c]) ++ escSlash rest

/-- Second stage of `escapeValue`: `replace(/:/g, "\\:")`. -/
def escColon : List Char → List Char
  | [] => []
  | c :: rest => (if c = ':' then [backslashChar, ':'] else [c]) ++ escColon rest

/-- Third stage of `escapeValue`: each single quote becomes the four
characters quote, backslash, quote, quote (JS `replace(/'/g, "'\\''")`). -/
def escQuote : List Char → List Char
  | [] => []
  | c :: rest =>
    (if c = quoteChar then [quoteChar, backslashChar, quoteChar, quoteChar] else [c]) ++
      escQuote rest

/-- `escapeValue` from `src/compiler/filter-serializers.ts`: escape
backslashes, then colons, then single quotes, in that order. -/
def escapeValue (s : String) : String :=
  ⟨escQuote (escColon (escSlash s.data))⟩

/-- `serializeVideoFilter` from `src/compiler/filter-serializers.ts`. -/
def serializeVideoFilter : VideoFilter → String
  | .scale w h alg fo =>
    -- -2 instead of -1 keeps dimensions divisible by 2 (h264/h265)
    let w0 := w.getD (-2)
    let h0 := h.getD (-2)
    let effectiveW := if w0 = -1 then -2 else w0
    let effectiveH := if h0 = -1 then -2 else h0
    let parts :=
      ["w=" ++ numStr effectiveW, "h=" ++ numStr effectiveH] ++
      (match alg with
        | some a => if a = "" then [] else ["flags=" ++ a]
        | none => []) ++
      (match fo with
        | some f => if f = "" then [] else ["force_original_aspect_ratio=" ++ f]
        | none => [])
    "scale=" ++ joinSep ":" parts
  | .crop w h x y =>
    let parts :=
      ["w=" ++ serializeExpr w, "h=" ++ serializeExpr h] ++
      (match x with | some e => ["x=" ++ serializeExpr e] | none => []) ++
      (match y with | some e => ["y=" ++ serializeExpr e] | none => [])
    "crop=" ++ joinSep ":" parts
  | .fps v r =>
    "fps=" ++ numStr v ++
      (match r with
        | some s => if s = "" then "" else ":round=" ++ s
        | none => "")
  | .trim s e d =>
    let parts :=
      (match s with | some q => ["start=" ++ numStr q] | none => []) ++
      (match e with | some q => ["end=" ++ numStr q] | none => []) ++
      (match d with | some q => ["duration=" ++ numStr q] | none => [])
    -- setpts resets timestamps after the trim
    if parts.length > 0 then "trim=" ++ joinSep ":" parts ++ ",setpts=PTS-STARTPTS"
    else "null"
  | .fade t st d c =>
    let parts :=
      ["t=" ++ t, "st=" ++ numStr st, "d=" ++ numStr d] ++
      (match c with
        | some col => if col = "" then [] else ["c=" ++ escapeValue col]
        | none => [])
    "fade=" ++ joinSep ":" parts
  | .rotate a ow oh fc =>
    let parts :=
      ["a=" ++ serializeExpr a] ++
      (match ow with | some e => ["ow=" ++ serializeExpr e] | none => []) ++
      (match oh with | some e => ["oh=" ++ serializeExpr e] | none => []) ++
      (match fc with
        | some col => if col = "" then [] else ["c=" ++ escapeValue col]
        | none => [])
    "rotate=" ++ joinSep ":" parts
  | .flip dir => if dir = "horizontal" then "hflip" else "vflip"
  | .transpose d => "transpose=" ++ numStr d
  | .overlay _ x y ea sh =>
    let parts :=
      ["x=" ++ serializeExpr x, "y=" ++ serializeExpr y] ++
      (if ea then ["format=auto"] else []) ++
      (if sh then ["shortest=1"] else [])
    "overlay=" ++ joinSep ":" parts
  | .pad w h x y c =>
    let parts :=
      ["w=" ++ serializeExpr w, "h=" ++ serializeExpr h] ++
      (match x with | some e => ["x=" ++ serializeExpr e] | none => []) ++
      (match y with | some e => ["y=" ++ serializeExpr e] | none => []) ++
      (match c with
        | some col => if col = "" then [] else ["color=" ++ escapeValue col]
        | none => [])
    "pad=" ++ joinSep ":" parts
  | .setsar s => "setsar=" ++ serializeExpr s
  | .setdar d => "setdar=" ++ serializeExpr d
  | .format pfs => "format=" ++ joinSep "|" pfs

/-- Lookup table of `channelmix` layouts (an identity map in the source). -/
def channelLayoutMap : List (String × String) :=
  [("mono", "mono"), ("stereo", "stereo"), ("5.1", "5.1"), ("7.1", "7.1")]

/-- `serializeAudioFilter` from `src/compiler/filter-serializers.ts`. -/
def serializeAudioFilter : AudioFilter → String
  | .volume v _ => "volume=" ++ serializeExpr v
  | .normalize t tl lr tp fl gs =>
    if t = "loudnorm" then
      let parts :=
        (match tl with | some q => ["I=" ++ numStr q] | none => []) ++
        (match lr with | some q => ["LRA=" ++ numStr q] | none => []) ++
        (match tp with | some q => ["TP=" ++ numStr q] | none => [])
      if parts.length > 0 then "loudnorm=" ++ joinSep ":" parts else "loudnorm"
    else
      let parts :=
        (match fl with | some q => ["f=" ++ numStr q] | none => []) ++
        (match gs with | some q => ["g=" ++ numStr q] | none => [])
      if parts.length > 0 then "dynaudnorm=" ++ joinSep ":" parts else "dynaudnorm"
  | .afade t st d c =>
    let parts :=
      ["t=" ++ t, "st=" ++ numStr st, "d=" ++ numStr d] ++
      (match c with
        | some cu => if cu = "" then [] else ["curve=" ++ cu]
        | none => [])
    "afade=" ++ joinSep ":" parts
  | .atrim s e d =>
    let parts :=
      (match s with | some q => ["start=" ++ numStr q] | none => []) ++
      (match e with | some q => ["end=" ++ numStr q] | none => []) ++
      (match d with | some q => ["duration=" ++ numStr q] | none => [])
    -- asetpts resets timestamps after the trim
    if parts.length > 0 then "atrim=" ++ joinSep ":" parts ++ ",asetpts=PTS-STARTPTS"
    else "anull"
  | .aresample r => "aresample=" ++ numStr r
  | .channelmap m cl =>
    "channelmap=map=" ++ m ++
      (match cl with
        | some c => if c = "" then "" else ":channel_layout=" ++ c
        | none => "")
  | .channelmix l =>
    "aformat=channel_layouts=" ++ ((channelLayoutMap.lookup l).getD l)
  | .adelay d => "adelay=" ++ d
  | .highpass f p w wt =>
    "highpass=f=" ++ numStr f ++
      (match p with | some q => ":p=" ++ numStr q | none => "") ++
      (match w with
        | some q =>
          ":w=" ++ numStr q ++
            (match wt with
              | some t => if t = "" then "" else ":t=" ++ t
              | none => "")
        | none => "")
  | .lowpass f p w wt =>
    "lowpass=f=" ++ numStr f ++
      (match p with | some q => ":p=" ++ numStr q | none => "") ++
      (match w with
        | some q =>
          ":w=" ++ numStr q ++
            (match wt with
              | some t => if t = "" then "" else ":t=" ++ t
              | none => "")
        | none => "")
  | .equalizer f w wt gn =>
    "equalizer=f=" ++ numStr f ++ ":g=" ++ numStr gn ++ ":w=" ++ numStr w ++
      (match wt with
        | some t => if t = "" then "" else ":t=" ++ t
        | none => "")

/-- `serializeVideoFilterChain`: comma-joined chain, `""` when empty. -/
def serializeVideoFilterChain (fs : List VideoFilter) : String :=
  if fs.length = 0 then "" else joinSep "," (fs.map serializeVideoFilter)

/-- `serializeAudioFilterChain`: comma-joined chain, `""` when empty. -/
def serializeAudioFilterChain (fs : List AudioFilter) : String :=
  if fs.length = 0 then "" else joinSep "," (fs.map serializeAudioFilter)

/-! ## Validator (`src/ast/validation.ts`) -/

/-- `ValidationError` (`src/errors/index.ts`): a message plus the optional
offending field. -/
structure ValidationError where
  message : String
  field : Option String := none
deriving DecidableEq, Repr

/-- `ValidationResult`. -/
structure ValidationResult where
  valid : Bool
  errors : List ValidationError
  warnings : List String
deriving DecidableEq, Repr

/-- `validateVideoFilter(filter, inputIds)` from `src/ast/validation.ts`. -/
def validateVideoFilter (filter : VideoFilter) (inputIds : List String) :
    List ValidationError :=
  match filter with
  | .scale w h _ _ =>
    (match w with
      | some v =>
        if v ≠ -1 ∧ v ≠ -2 ∧ v ≤ 0 then
          [⟨"Width must be positive or -1/-2 for auto", some "scale.width"⟩]
        else []
      | none => []) ++
    (match h with
      | some v =>
        if v ≠ -1 ∧ v ≠ -2 ∧ v ≤ 0 then
          [⟨"Height must be positive or -1/-2 for auto", some "scale.height"⟩]
        else []
      | none => [])
  | .fps v _ =>
    if v ≤ 0 ∨ v > 240 then
      [⟨"FPS must be between 1 and 240", some "fps.value"⟩]
    else []
  | .trim s e d =>
    (match s with
      | some v => if v < 0 then [⟨"Start time cannot be negative", some "trim.start"⟩] else []
      | none => []) ++
    (match e with
      | some v => if v < 0 then [⟨"End time cannot be negative", some "trim.end"⟩] else []
      | none => []) ++
    (match s, e with
      | some vs, some ve =>
        if vs ≥ ve then [⟨"Start time must be before end time", some "trim"⟩] else []
      | _, _ => []) ++
    (match d with
      | some v => if v ≤ 0 then [⟨"Duration must be positive", some "trim.duration"⟩] else []
      | none => [])
  | .fade _ st d _ =>
    (if st < 0 then [⟨"Fade start time cannot be negative", some "fade.startTime"⟩] else []) ++
    (if d ≤ 0 then [⟨"Fade duration must be positive", some "fade.duration"⟩] else [])
  | .overlay r _ _ _ _ =>
    if r ∈ inputIds then []
    else [⟨"Overlay references non-existent input \"" ++ r ++ "\"", some "overlay.inputRef"⟩]
  | _ => []

/-- `validateAudioFilter(filter)` from `src/ast/validation.ts`. -/
def validateAudioFilter (filter : AudioFilter) : List ValidationError :=
  match filter with
  | .volume v _ =>
    (match v with
      | .num q => if q < 0 then [⟨"Volume cannot be negative", some "volume.value"⟩] else []
      | .str _ => [])
  | .atrim s e _ =>
    (match s with
      | some v => if v < 0 then [⟨"Start time cannot be negative", some "atrim.start"⟩] else []
      | none => []) ++
    (match e with
      | some v => if v < 0 then [⟨"End time cannot be negative", some "atrim.end"⟩] else []
      | none => []) ++
    (match s, e with
      | some vs, some ve =>
        if vs ≥ ve then [⟨"Start time must be before end time", some "atrim"⟩] else []
      | _, _ => [])
  | .afade _ st d _ =>
    (if st < 0 then [⟨"Fade start time cannot be negative", some "afade.startTime"⟩] else []) ++
    (if d ≤ 0 then [⟨"Fade duration must be positive", some "afade.duration"⟩] else [])
  | .aresample r =>
    (if r ≤ 0 then [⟨"Sample rate must be positive", some "aresample.sampleRate"⟩] else []) ++
    (if r < 8000 ∨ r > 192000 then
      [⟨"Sample rate should be between 8000 and 192000 Hz", some "aresample.sampleRate"⟩]
     else [])
  | .highpass f _ _ _ =>
    if f ≤ 0 then [⟨"Frequency must be positive", some "highpass.frequency"⟩] else []
  | .lowpass f _ _ _ =>
    if f ≤ 0 then [⟨"Frequency must be positive", some "lowpass.frequency"⟩] else []
  | .equalizer f w _ _ =>
    (if f ≤ 0 then [⟨"Frequency must be positive", some "equalizer.frequency"⟩] else []) ++
    (if w ≤ 0 then [⟨"Width must be positive", some "equalizer.width"⟩] else [])
  | _ => []

/-- Truthiness of `graph.output.destination`: only the empty path string is
falsy (a stream handle is always truthy). -/
def destinationMissing : OutputDestination → Bool
  | .path p => p = ""
  | .stream => false

/-- `validateGraph(graph)` from `src/ast/validation.ts`: all checks are
accumulated, `valid` iff the error list is empty. -/
def validateGraph (g : MediaGraph) : ValidationResult :=
  let errors :=
    (if g.inputs.length = 0 then [⟨"At least one input is required", none⟩] else []) ++
    (if destinationMissing g.output.destination then
      [⟨"Output destination is required", none⟩]
     else []) ++
    (let inputIds := getInputIds g
     ((getReferencedInputs g).map (fun ref =>
        if ref ∈ inputIds then ([] : List ValidationError)
        else [⟨"Referenced input \"" ++ ref ++ "\" does not exist", none⟩])).flatten ++
     ((g.videoStreams.enum.map (fun (p : ℕ × VideoStream) =>
        (if p.2.inputRef ∈ inputIds then []
         else [⟨"Video stream " ++ toString p.1 ++ " references non-existent input \"" ++
                p.2.inputRef ++ "\"", none⟩]) ++
        (p.2.filters.map (fun f => validateVideoFilter f inputIds)).flatten)).flatten) ++
     ((g.audioStreams.enum.map (fun (p : ℕ × AudioStream) =>
        (if p.2.inputRef ∈ inputIds then []
         else [⟨"Audio stream " ++ toString p.1 ++ " references non-existent input \"" ++
                p.2.inputRef ++ "\"", none⟩]) ++
        (p.2.filters.map validateAudioFilter).flatten)).flatten) ++
     (match g.output.video with
       | some v =>
         (match v.crf with
           | some crf =>
             if crf < 0 ∨ crf > 63 then [⟨"CRF must be between 0 and 63", some "crf"⟩]
             else []
           | none => [])
       | none => []))
  let warnings :=
    if g.videoStreams.length = 0 ∧ g.audioStreams.length = 0 then
      ["No video or audio streams configured - output may be empty"]
    else []
  { valid := errors.length == 0, errors := errors, warnings := warnings }

/-- `assertValid(graph)`: re-validate and fail with the first accumulated
error (the `[]` branch is unreachable because `valid` means no errors). -/
def assertValid (g : MediaGraph) : Except ValidationError Unit :=
  let result := validateGraph g
  if result.valid then .ok ()
  else
    match result.errors with
    | e :: _ => .error e
    | [] => .ok ()

/-! ## Argument sections shared by both compilers

The two compilers push the same global/input/codec/metadata/flag/format/
destination token runs; each run is modelled as one list, concatenated in
the push order of the source. -/

/-- Global option tokens (`-y`, `-loglevel`, `-threads`, `-hwaccel`). -/
def globalArgs (o : GlobalOptions) : List String :=
  (if o.overwrite then ["-y"] else []) ++
  (match o.logLevel with
    | some l => if l = "" then [] else ["-loglevel", l]
    | none => []) ++
  (match o.threads with | some t => ["-threads", numStr t] | none => []) ++
  (match o.hwAccel with
    | some h => if h = "" then [] else ["-hwaccel", h]
    | none => [])

/-- Per-input tokens: seek, duration, format, frame rate, loop, then the
`-i` source token (`pipe:0` for stream inputs). -/
def inputArgs (i : MediaInput) : List String :=
  let o := i.options.getD {}
  (match o.seekTo with | some q => ["-ss", numStr q] | none => []) ++
  (match o.duration with | some q => ["-t", numStr q] | none => []) ++
  (match o.format with
    | some f => if f = "" then [] else ["-f", f]
    | none => []) ++
  (match o.frameRate with | some q => ["-r", numStr q] | none => []) ++
  (match o.loop with | some q => ["-stream_loop", numStr q] | none => []) ++
  ["-i", match i.source with | .path p => p | .stream => "pipe:0"]

/-- Extra codec-specific options (`Object.entries` order): booleans emit a
bare flag when true, other values emit flag plus rendered value. -/
def optionEntryArgs : Option (List (String × OptVal)) → List String
  | some l =>
    (l.map (fun kv =>
      match kv.2 with
      | .bool b => if b then ["-" ++ kv.1] else []
      | .num q => ["-" ++ kv.1, numStr q]
      | .str s => ["-" ++ kv.1, s])).flatten
  | none => []

/-- Abstract-to-concrete video encoder names. -/
def videoCodecMap : List (String × String) :=
  [("h264", "libx264"), ("h265", "libx265"), ("hevc", "libx265"),
   ("vp9", "libvpx-vp9"), ("vp8", "libvpx"), ("av1", "libaom-av1"),
   ("mpeg4", "mpeg4"), ("prores", "prores_ks")]

/-- Abstract-to-concrete audio encoder names. -/
def audioCodecMap : List (String × String) :=
  [("aac", "aac"), ("mp3", "libmp3lame"), ("opus", "libopus"),
   ("vorbis", "libvorbis"), ("flac", "flac"), ("ac3", "ac3"),
   ("pcm_s16le", "pcm_s16le")]

/-- Video codec block: `copy` bypasses rate/quality parameters; with no
codec config and no enabled video stream the `-vn` disable flag is
emitted instead. -/
def videoCodecArgs (g : MediaGraph) : List String :=
  match g.output.video with
  | some v =>
    if v.codec = "copy" then ["-c:v", "copy"]
    else
      ["-c:v", (videoCodecMap.lookup v.codec).getD v.codec] ++
      (match v.bitrate with
        | some b => if b = "" then [] else ["-b:v", b]
        | none => []) ++
      (match v.maxBitrate with
        | some b => if b = "" then [] else ["-maxrate", b]
        | none => []) ++
      (match v.bufferSize with
        | some b => if b = "" then [] else ["-bufsize", b]
        | none => []) ++
      (match v.crf with | some q => ["-crf", numStr q] | none => []) ++
      (match v.preset with
        | some p => if p = "" then [] else ["-preset", p]
        | none => []) ++
      (match v.profile with
        | some p => if p = "" then [] else ["-profile:v", p]
        | none => []) ++
      (match v.pixelFormat with
        | some p => if p = "" then [] else ["-pix_fmt", p]
        | none => []) ++
      optionEntryArgs v.options
  | none => if hasVideoOutput g then [] else ["-vn"]

/-- Audio codec block; note `sampleRate`/`channels` go through JS number
truthiness, so an explicit `0` is skipped. -/
def audioCodecArgs (g : MediaGraph) : List String :=
  match g.output.audio with
  | some a =>
    if a.codec = "copy" then ["-c:a", "copy"]
    else
      ["-c:a", (audioCodecMap.lookup a.codec).getD a.codec] ++
      (match a.bitrate with
        | some b => if b = "" then [] else ["-b:a", b]
        | none => []) ++
      (match a.sampleRate with
        | some q => if q = 0 then [] else ["-ar", numStr q]
        | none => []) ++
      (match a.channels with
        | some q => if q = 0 then [] else ["-ac", numStr q]
        | none => []) ++
      optionEntryArgs a.options
  | none => if hasAudioOutput g then [] else ["-an"]

/-- Metadata pairs, one `-metadata key=value` run per entry. -/
def metadataArgs (o : OutputConfig) : List String :=
  match o.metadata with
  | some m => (m.map (fun kv => ["-metadata", kv.1 ++ "=" ++ kv.2])).flatten
  | none => []

/-- Output flag tokens (`-movflags +faststart`, `-shortest`). -/
def outputFlagArgs (o : OutputConfig) : List String :=
  match o.flags with
  | some f =>
    (if f.fastStart then ["-movflags", "+faststart"] else []) ++
    (if f.shortest then ["-shortest"] else [])
  | none => []

/-- Container-format override tokens. -/
def outputFormatArgs (o : OutputConfig) : List String :=
  match o.format with
  | some f => if f = "" then [] else ["-f", f]
  | none => []

/-- The destination token (`pipe:1` for stream output). -/
def destToken (o : OutputConfig) : String :=
  match o.destination with
  | .path p => p
  | .stream => "pipe:1"

/-! ## Simple compiler (`src/compiler/simple-compiler.ts`) -/

/-- The `-vf` section: linear chain of the first non-disabled video
stream, only when it has filters. -/
def simpleVideoFilterArgs (g : MediaGraph) : List String :=
  if hasVideoOutput g then
    match g.videoStreams.find? (fun s => !s.disabled) with
    | some vs =>
      if vs.filters.length > 0 then
        let vf := serializeVideoFilterChain vs.filters
        if vf = "" then [] else ["-vf", vf]
      else []
    | none => []
  else []

/-- The `-af` section: linear chain of the first non-disabled audio
stream, only when it has filters. -/
def simpleAudioFilterArgs (g : MediaGraph) : List String :=
  if hasAudioOutput g then
    match g.audioStreams.find? (fun s => !s.disabled) with
    | some as_ =>
      if as_.filters.length > 0 then
        let af := serializeAudioFilterChain as_.filters
        if af = "" then [] else ["-af", af]
      else []
    | none => []
  else []

/-- `compileSimple(graph)`: the full ordered argument vector of the simple
path. -/
def compileSimple (g : MediaGraph) : List String :=
  globalArgs g.options ++
  (g.inputs.map inputArgs).flatten ++
  simpleVideoFilterArgs g ++
  simpleAudioFilterArgs g ++
  videoCodecArgs g ++
  audioCodecArgs g ++
  metadataArgs g.output ++
  outputFlagArgs g.output ++
  outputFormatArgs g.output ++
  [destToken g.output]

/-! ## Complex compiler (`src/compiler/complex-compiler.ts`) -/

/-- Does `\[[^\]]+\]$` match the whole of `cs` (an opening bracket, a
non-empty bracket-free body, a closing bracket at end of input)? -/
def bracketMatchAt (cs : List Char) : Bool :=
  match cs with
  | '[' :: rest =>
    decide (rest.length ≥ 2) && (rest.getLast? == some ']') &&
      !(rest.dropLast.contains ']')
  | _ => false

/-- Left-to-right scan for the first position where `\[[^\]]+\]$` matches;
returns the characters before the match. -/
def bracketScan : List Char → Option (List Char)
  | [] => none
  | c :: cs =>
    if bracketMatchAt (c :: cs) then some []
    else (bracketScan cs).map (fun front => c :: front)

/-- JS `lastPart.replace(/\[[^\]]+\]$/, "[v_out]")`: rewrite the trailing
pad label to the reserved final video label. -/
def replaceVOut (s : String) : String :=
  match bracketScan s.data with
  | some front => ⟨front ++ ("[v_out]".data)⟩
  | none => s

/-- The overlay-aware walk of the video filter list: accumulates
consecutive non-overlay filters, flushing them as one segment before each
overlay segment.  State is `(filterParts, currentLabel, normalFilters)`. -/
def buildVideoParts (g : MediaGraph) :
    List VideoFilter → List String → String → List VideoFilter →
    List String × String × List VideoFilter
  | [], parts, cur, normals => (parts, cur, normals)
  | .overlay ref x y ea sh :: fs, parts, cur, normals =>
    let flushed :=
      if normals.length > 0 then
        let flushLabel := "v_" ++ toString parts.length
        (parts ++
          ["[" ++ cur ++ "]" ++ joinSep "," (normals.map serializeVideoFilter) ++
            "[" ++ flushLabel ++ "]"],
         flushLabel)
      else (parts, cur)
    let overlayLabel := toString (getInputIndex g ref) ++ ":v"
    let nextLabel := "v_" ++ toString flushed.1.length
    let parts2 :=
      flushed.1 ++
      ["[" ++ flushed.2 ++ "][" ++ overlayLabel ++ "]" ++
        serializeVideoFilter (.overlay ref x y ea sh) ++ "[" ++ nextLabel ++ "]"]
    buildVideoParts g fs parts2 nextLabel []
  | f :: fs, parts, cur, normals => buildVideoParts g fs parts cur (normals ++ [f])

/-- The video half of `-filter_complex`: the list of segments and the
output video label ("" when there is no enabled video stream). -/
def complexVideoSection (g : MediaGraph) : List String × String :=
  if hasVideoOutput g then
    match g.videoStreams.find? (fun s => !s.disabled) with
    | some vs =>
      let inputIndex := getInputIndex g vs.inputRef
      let state := buildVideoParts g vs.filters [] (toString inputIndex ++ ":v") []
      if state.2.2.length > 0 then
        (state.1 ++
          ["[" ++ state.2.1 ++ "]" ++
            joinSep "," (state.2.2.map serializeVideoFilter) ++ "[v_out]"],
         "v_out")
      else if state.1.length > 0 then
        -- rewrite the last segment's output label to v_out
        (state.1.dropLast ++ [replaceVOut (state.1.getLastD "")], "v_out")
      else ([], state.2.1)
    | none => ([], "")
  else ([], "")

/-- The audio half of `-filter_complex`: at most one segment, plus the
output audio label. -/
def complexAudioSection (g : MediaGraph) : List String × String :=
  if hasAudioOutput g then
    match g.audioStreams.find? (fun s => !s.disabled) with
    | some as_ =>
      if as_.filters.length > 0 then
        (["[" ++ toString (getInputIndex g as_.inputRef) ++ ":a]" ++
            joinSep "," (as_.filters.map serializeAudioFilter) ++ "[a_out]"],
         "a_out")
      else ([], toString (getInputIndex g as_.inputRef) ++ ":a")
    | none => ([], "")
  else ([], "")

/-- The `-filter_complex` flag plus the `-map` directives (video map
first); synthetic labels (containing `_`) are bracketed when mapped, raw
pad addresses are not. -/
def complexFilterMapArgs (g : MediaGraph) : List String :=
  let v := complexVideoSection g
  let a := complexAudioSection g
  let filterParts := v.1 ++ a.1
  (if filterParts.length > 0 then ["-filter_complex", joinSep ";" filterParts] else []) ++
  (if hasVideoOutput g && v.2 != "" then
    (if filterParts.length > 0 && v.2.data.contains '_' then ["-map", "[" ++ v.2 ++ "]"]
     else ["-map", v.2])
   else []) ++
  (if hasAudioOutput g && a.2 != "" then
    (if filterParts.length > 0 && a.2.data.contains '_' then ["-map", "[" ++ a.2 ++ "]"]
     else ["-map", a.2])
   else [])

/-- `compileComplex(graph)`: the full ordered argument vector of the
complex path. -/
def compileComplex (g : MediaGraph) : List String :=
  globalArgs g.options ++
  (g.inputs.map inputArgs).flatten ++
  complexFilterMapArgs g ++
  videoCodecArgs g ++
  audioCodecArgs g ++
  metadataArgs g.output ++
  outputFlagArgs g.output ++
  outputFormatArgs g.output ++
  [destToken g.output]

/-! ## Compiler entry point (`src/compiler/index.ts`) -/

/-- `compile(graph)`: route through the complexity classifier. -/
def compile (g : MediaGraph) : List String :=
  if requiresComplexFilter g then compileComplex g else compileSimple g

/-! ## Spec-side definitions

These definitions follow the specification's words (not the source) and
are used to state the claims. -/

/-- Is this character one the spec says gets a backslash escape
(separator, backslash, or quote)? -/
def escSeq (c : Char) : Bool := c = backslashChar || c = ':' || c = quoteChar

/-- The documented unescaping from the spec: remove the backslash escapes
introduced for the reserved separator and quote characters. -/
def specUnescape : List Char → List Char
  | [] => []
  | c :: rest =>
    if c = backslashChar then
      match rest with
      | [] => [c]
      | d :: rest2 =>
        if escSeq d then d :: specUnescape rest2
        else c :: specUnescape (d :: rest2)
    else c :: specUnescape rest

/-- The documented unescaping on strings. -/
def unescapeValue (s : String) : String := ⟨specUnescape s.data⟩

/-- The classifier condition the spec states: more than one input, an
overlay filter anywhere, or more than one stream of a kind. -/
def complexCondition (g : MediaGraph) : Prop :=
  1 < g.inputs.length ∨
  (∃ s ∈ g.videoStreams, ∃ f ∈ s.filters, f.isOverlay = true) ∨
  1 < g.videoStreams.length ∨
  1 < g.audioStreams.length

/-- A serialized trim expression carrying the timestamp-reset
sub-expression within the same serialized expression. -/
def trimWithReset (s : String) : Prop :=
  ∃ p, s = "trim=" ++ p ++ ",setpts=PTS-STARTPTS"

/-- A scale parameter string in the fixed order width then height. -/
def mkScaleStr (a b : ℚ) : String :=
  "scale=" ++ joinSep ":" ["w=" ++ numStr a, "h=" ++ numStr b]

/-- The FPS range error of the validator. -/
def fpsRangeError : ValidationError :=
  ⟨"FPS must be between 1 and 240", some "fps.value"⟩

/-- `core` occurs as a contiguous run of tokens inside `l`. -/
def hasSegment (core l : List String) : Prop :=
  ∃ pre post, l = pre ++ core ++ post

/-- Boolean test: is `core` an initial run of `l`? -/
def leadsWith : List String → List String → Bool
  | [], _ => true
  | _ :: _, [] => false
  | a :: as, b :: bs => a == b && leadsWith as bs

/-- Boolean test for `hasSegment`. -/
def segTest (core : List String) : List String → Bool
  | [] => leadsWith core []
  | x :: rest => leadsWith core (x :: rest) || segTest core rest

/-! ## Helper lemmas -/

theorem leadsWith_iff (core l : List String) :
    leadsWith core l = true ↔ ∃ post, l = core ++ post := by
  induction core generalizing l with
  | nil => simp [leadsWith]
  | cons a as ih =>
    cases l with
    | nil => simp [leadsWith]
    | cons b bs =>
      simp only [leadsWith, Bool.and_eq_true, beq_iff_eq, ih, List.cons_append,
        List.cons.injEq]
      constructor
      · rintro ⟨rfl, post, rfl⟩
        exact ⟨post, rfl, rfl⟩
      · rintro ⟨post, rfl, rfl⟩
        exact ⟨rfl, post, rfl⟩

theorem segTest_iff (core l : List String) :
    segTest core l = true ↔ hasSegment core l := by
  induction l with
  | nil =>
    simp only [segTest, leadsWith_iff, hasSegment]
    constructor
    · rintro ⟨post, h⟩
      exact ⟨[], post, h⟩
    · rintro ⟨pre, post, h⟩
      rcases List.append_eq_nil.mp h.symm with ⟨h1, h2⟩
      rcases List.append_eq_nil.mp h1 with ⟨h3, h4⟩
      exact ⟨post, by simp_all⟩
  | cons x rest ih =>
    simp only [segTest, Bool.or_eq_true, leadsWith_iff, ih, hasSegment]
    constructor
    · rintro (⟨post, h⟩ | ⟨pre, post, h⟩)
      · exact ⟨[], post, by simpa using h⟩
      · exact ⟨x :: pre, post, by simp [h]⟩
    · rintro ⟨pre, post, h⟩
      cases pre with
      | nil => exact Or.inl ⟨post, by simpa using h⟩
      | cons p pre2 =>
        simp only [List.cons_append, List.cons.injEq] at h
        exact Or.inr ⟨pre2, post, h.2⟩

theorem findIdxGo_none (id : String) (l : List MediaInput)
    (h : ∀ i ∈ l, i.id ≠ id) : ∀ n, findIdxGo id l n = -1 := by
  induction l with
  | nil => intro n; rfl
  | cons i rest ih =>
    intro n
    simp only [findIdxGo]
    rw [if_neg (h i (by simp))]
    exact ih (fun j hj => h j (by simp [hj])) (n + 1)

theorem any_of_find? {α : Type} {p : α → Bool} {l : List α} {a : α}
    (h : l.find? p = some a) : l.any p = true :=
  List.any_eq_true.mpr ⟨a, List.mem_of_find?_eq_some h, List.find?_some h⟩

theorem mem_escSlash {c : Char} {l : List Char} (h : c ∈ escSlash l) :
    c = backslashChar ∨ c ∈ l := by
  induction l with
  | nil => simp [escSlash] at h
  | cons a t ih =>
    simp only [escSlash] at h
    rcases List.mem_append.mp h with h1 | h1
    · by_cases ha : a = backslashChar
      · rw [if_pos ha] at h1
        simp at h1
        exact Or.inl (by simp [h1])
      · rw [if_neg ha] at h1
        simp at h1
        exact Or.inr (by simp [h1])
    · rcases ih h1 with h2 | h2
      · exact Or.inl h2
      · exact Or.inr (by simp [h2])

theorem mem_escColon {c : Char} {l : List Char} (h : c ∈ escColon l) :
    c = backslashChar ∨ c = ':' ∨ c ∈ l := by
  induction l with
  | nil => simp [escColon] at h
  | cons a t ih =>
    simp only [escColon] at h
    rcases List.mem_append.mp h with h1 | h1
    · by_cases ha : a = ':'
      · rw [if_pos ha] at h1
        rcases List.mem_pair.mp h1 with h2 | h2
        · exact Or.inl h2
        · exact Or.inr (Or.inl h2)
      · rw [if_neg ha] at h1
        simp at h1
        exact Or.inr (Or.inr (by simp [h1]))
    · rcases ih h1 with h2 | h2 | h2
      · exact Or.inl h2
      · exact Or.inr (Or.inl h2)
      · exact Or.inr (Or.inr (by simp [h2]))

theorem escQuote_id {l : List Char} (h : ∀ c ∈ l, c ≠ quoteChar) :
    escQuote l = l := by
  induction l with
  | nil => rfl
  | cons a t ih =>
    simp only [escQuote]
    rw [if_neg (h a (by simp))]
    simp [ih (fun x hx => h x (by simp [hx]))]

theorem specUnescape_cons_ne {c : Char} (l : List Char)
    (hc : ¬ (c = backslashChar)) :
    specUnescape (c :: l) = c :: specUnescape l := by
  cases l <;> simp [specUnescape, hc]

theorem specUnescape_escColon_escSlash {l : List Char}
    (h : ∀ c ∈ l, c ≠ quoteChar) :
    specUnescape (escColon (escSlash l)) = l := by
  induction l with
  | nil => rfl
  | cons a t ih =>
    have iht := ih (fun x hx => h x (by simp [hx]))
    by_cases ha : a = backslashChar
    · subst ha
      have hbs : ¬ (backslashChar = ':') := by decide
      have h1 : escSlash (backslashChar :: t) =
          backslashChar :: backslashChar :: escSlash t := by
        simp [escSlash]
      have h2 : escColon (backslashChar :: backslashChar :: escSlash t) =
          backslashChar :: backslashChar :: escColon (escSlash t) := by
        rw [escColon, if_neg hbs, escColon, if_neg hbs]
        rfl
      rw [h1, h2]
      simp [specUnescape, escSeq, iht]
    · by_cases hcol : a = ':'
      · subst hcol
        have h1 : escSlash (':' :: t) = ':' :: escSlash t := by
          simp [escSlash, ha]
        have h2 : escColon (':' :: escSlash t) =
            backslashChar :: ':' :: escColon (escSlash t) := by
          rw [escColon, if_pos rfl]
          rfl
        rw [h1, h2]
        simp [specUnescape, escSeq, iht]
      · have h1 : escSlash (a :: t) = a :: escSlash t := by
          simp [escSlash, ha]
        have h2 : escColon (a :: escSlash t) = a :: escColon (escSlash t) := by
          rw [escColon, if_neg hcol]
          rfl
        rw [h1, h2, specUnescape_cons_ne _ ha, iht]

/-! ## Claims -/

/-- Claim C4: every video trim filter with at least one of
start/end/duration set serializes to the trim expression immediately
followed, in the same serialized expression, by the timestamp-reset
sub-expression; in particular `start=5, end=10` gives
`trim=start=5:end=10,setpts=PTS-STARTPTS` and never the bare trim. -/
theorem trim_emits_timestamp_reset :
    (∀ s e d : Option ℚ, (s ≠ none ∨ e ≠ none ∨ d ≠ none) →
      trimWithReset (serializeVideoFilter (.trim s e d))) ∧
    serializeVideoFilter (.trim (some 5) (some 10) none) =
      "trim=start=5:end=10,setpts=PTS-STARTPTS" ∧
    serializeVideoFilter (.trim (some 5) (some 10) none) ≠ "trim=start=5:end=10" := by
  refine ⟨?_, by decide, by decide⟩
  intro s e d h
  rcases s with _ | a <;> rcases e with _ | b <;> rcases d with _ | c
  · simp at h
  all_goals exact ⟨_, rfl⟩

/-- Witness for C4: the theorem applied at the trim filter `start=7`. -/
theorem trim_emits_timestamp_reset_witness :
    trimWithReset (serializeVideoFilter (.trim (some 7) none none)) :=
  trim_emits_timestamp_reset.1 (some 7) none none (Or.inl (by simp))

/-- Claim C10: a video trim filter with all of start/end/duration absent
serializes to the identity filter `null`, and an audio atrim filter with
all parameters absent serializes to `anull`, with no timestamp-reset
appended in either case. -/
theorem empty_trim_serializes_null :
    serializeVideoFilter (.trim none none none) = "null" ∧
    serializeAudioFilter (.atrim none none none) = "anull" :=
  ⟨rfl, rfl⟩

/-- Claim C8 (amended by nothing; stated on the scale serializer): an auto
dimension (unset or `-1`) serializes as the codec-safe sentinel `-2`, the
explicit dimension keeps its value, in the fixed order width then height;
`-1` is never emitted for a dimension; `{width:1920, height:1080}` gives
`scale=w=1920:h=1080`. -/
theorem scale_auto_uses_codec_safe_sentinel :
    (∀ hv : ℚ, hv ≠ -1 → ∀ w : Option ℚ, (w = none ∨ w = some (-1)) →
      serializeVideoFilter (.scale w (some hv) none none) = mkScaleStr (-2) hv) ∧
    (∀ wv : ℚ, wv ≠ -1 → ∀ h : Option ℚ, (h = none ∨ h = some (-1)) →
      serializeVideoFilter (.scale (some wv) h none none) = mkScaleStr wv (-2)) ∧
    (∀ w h : Option ℚ, ∃ a b : ℚ, a ≠ -1 ∧ b ≠ -1 ∧
      serializeVideoFilter (.scale w h none none) = mkScaleStr a b) ∧
    serializeVideoFilter (.scale (some 1920) (some 1080) none none) =
      "scale=w=1920:h=1080" := by
  refine ⟨?_, ?_, ?_, by decide⟩
  · intro hv hne w hw
    rcases hw with rfl | rfl <;>
      simp [serializeVideoFilter, mkScaleStr, hne]
  · intro wv wne h hh
    rcases hh with rfl | rfl <;>
      simp [serializeVideoFilter, mkScaleStr, wne]
  · intro w h
    refine ⟨if w.getD (-2) = -1 then -2 else w.getD (-2),
            if h.getD (-2) = -1 then -2 else h.getD (-2), ?_, ?_, ?_⟩
    · split <;> simp_all
    · split <;> simp_all
    · simp [serializeVideoFilter, mkScaleStr]

/-- Witness for C8: the theorem applied at an unset width and explicit
height 1080. -/
theorem scale_auto_uses_codec_safe_sentinel_witness :
    serializeVideoFilter (.scale none (some 1080) none none) = mkScaleStr (-2) 1080 :=
  scale_auto_uses_codec_safe_sentinel.1 1080 (by norm_num) none (Or.inl rfl)

/-- Claim C6 (amended): the validator reports the FPS range error exactly
when the value is `≤ 0` or `> 240`; equivalently no error exactly when
`0 < value ≤ 240`.  On integer values this coincides with the claimed
interval `[1,240]`, but fractional values in `(0,1)` are accepted. -/
theorem fps_range_check (v : ℚ) (r : Option String) (ids : List String) :
    ((v ≤ 0 ∨ 240 < v) → validateVideoFilter (.fps v r) ids = [fpsRangeError]) ∧
    (0 < v → v ≤ 240 → validateVideoFilter (.fps v r) ids = []) := by
  constructor
  · intro h
    simp only [validateVideoFilter]
    rw [if_pos h]
    rfl
  · intro h1 h2
    simp only [validateVideoFilter]
    rw [if_neg]
    push_neg
    exact ⟨h1, h2⟩

/-- Witness for C6: the theorem applied at fps 300 (out of range above). -/
theorem fps_range_check_witness :
    validateVideoFilter (.fps 300 none) [] = [fpsRangeError] :=
  (fps_range_check 300 none []).1 (Or.inr (by norm_num))

/-- Counterexample for C6 as frozen: fps value 1/2 lies outside `[1,240]`
yet the validator reports no error. -/
theorem fps_range_check_counterexample :
    validateVideoFilter (.fps (1/2) none) [] = [] ∧ ¬ ((1 : ℚ) ≤ 1/2) := by
  constructor
  · simp only [validateVideoFilter]
    rw [if_neg]
    push_neg
    norm_num
  · norm_num

/-- Claim C5 (amended): serialize-then-documented-unescape round-trips for
every free-text value containing no single quote (covering the reserved
separator and backslash characters); single quotes are rewritten as the
quote-wrap sequence, which backslash-removal does not invert. -/
theorem escape_unescape_roundtrip (s : String)
    (h : ∀ c ∈ s.data, c ≠ quoteChar) :
    unescapeValue (escapeValue s) = s := by
  cases s with
  | mk data =>
    show String.mk (specUnescape (escQuote (escColon (escSlash data)))) = String.mk data
    rw [escQuote_id ?_]
    · exact congrArg String.mk (specUnescape_escColon_escSlash h)
    · intro c hc
      rcases mem_escColon hc with h1 | h1 | h1
      · subst h1; decide
      · subst h1; decide
      · rcases mem_escSlash h1 with h2 | h2
        · subst h2; decide
        · exact h c h2

/-- Witness for C5: the theorem applied at the colon- and
backslash-containing value. -/
theorem escape_unescape_roundtrip_witness :
    unescapeValue (escapeValue "a:b") = "a:b" :=
  escape_unescape_roundtrip "a:b" (by decide)

/-- Counterexample for C5 as frozen: a single quote does not round-trip:
it serializes to quote backslash-quote quote, which unescapes to three
quotes. -/
theorem escape_unescape_roundtrip_counterexample :
    unescapeValue (escapeValue "'") = "'''" ∧ unescapeValue (escapeValue "'") ≠ "'" := by
  constructor <;> decide

/-- Claim C7: `validateGraph` is valid exactly when its accumulated error
list is empty; `assertValid` returns normally exactly when the graph is
valid, and otherwise fails with the first accumulated error. -/
theorem assert_valid_first_error (g : MediaGraph) :
    ((validateGraph g).valid = true ↔ (validateGraph g).errors = []) ∧
    (assertValid g = .ok () ↔ (validateGraph g).valid = true) ∧
    (∀ e es, (validateGraph g).errors = e :: es → assertValid g = .error e) := by
  have hval : (validateGraph g).valid = ((validateGraph g).errors.length == 0) := rfl
  have h1 : (validateGraph g).valid = true ↔ (validateGraph g).errors = [] := by
    rw [hval]
    simp
  refine ⟨h1, ?_, ?_⟩
  · cases hv : (validateGraph g).valid with
    | true =>
      simp only [assertValid]
      rw [hv]
      simp
    | false =>
      have hne : (validateGraph g).errors ≠ [] := by
        intro hnil
        rw [h1.mpr hnil] at hv
        simp at hv
      simp only [assertValid]
      rw [hv]
      cases he : (validateGraph g).errors with
      | nil => exact absurd he hne
      | cons e es => simp
  · intro e es he
    have hv : (validateGraph g).valid = false := by
      rw [hval, he]
      simp
    simp only [assertValid]
    rw [hv, he]
    simp

/-- Witness for C7: on the empty graph, `assertValid` fails with the first
accumulated error (the missing-input error). -/
theorem assert_valid_first_error_witness :
    assertValid createMediaGraph = .error ⟨"At least one input is required", none⟩ :=
  (assert_valid_first_error createMediaGraph).2.2
    ⟨"At least one input is required", none⟩
    [⟨"Output destination is required", none⟩] (by decide)

/-- Claim C1: the classifier routes to the complex compiler exactly when
the graph has more than one input, some video stream contains an overlay
filter, or there is more than one video or more than one audio stream;
otherwise `compile` takes the simple path. -/
theorem classifier_routing (g : MediaGraph) :
    (requiresComplexFilter g = true ↔ complexCondition g) ∧
    (¬ complexCondition g → compile g = compileSimple g) ∧
    (complexCondition g → compile g = compileComplex g) := by
  have hiff : requiresComplexFilter g = true ↔ complexCondition g := by
    simp only [requiresComplexFilter, complexCondition]
    split_ifs with h1 h2 h3
    · simp only [true_iff]
      exact Or.inl h1
    · simp only [true_iff]
      rcases List.any_eq_true.mp h2 with ⟨s, hs, hf⟩
      rcases List.any_eq_true.mp hf with ⟨f, hfm, hov⟩
      exact Or.inr (Or.inl ⟨s, hs, f, hfm, hov⟩)
    · simp only [true_iff]
      rcases (by simpa using h3 : _ ∨ _) with h | h
      · exact Or.inr (Or.inr (Or.inl (by simpa using h)))
      · exact Or.inr (Or.inr (Or.inr (by simpa using h)))
    · simp only [Bool.false_eq_true, false_iff]
      rintro (h | ⟨s, hs, f, hfm, hov⟩ | h | h)
      · exact h1 h
      · exact absurd (List.any_eq_true.mpr
          ⟨s, hs, List.any_eq_true.mpr ⟨f, hfm, hov⟩⟩) h2
      · apply h3; simp only [Bool.or_eq_true]; exact Or.inl (by simpa using h)
      · apply h3; simp only [Bool.or_eq_true]; exact Or.inr (by simpa using h)
  refine ⟨hiff, ?_, ?_⟩
  · intro hn
    have hf : requiresComplexFilter g = false := by
      cases hrc : requiresComplexFilter g with
      | false => rfl
      | true => exact absurd (hiff.mp hrc) hn
    simp [compile, hf]
  · intro hp
    simp [compile, hiff.mpr hp]

/-- The single-input, overlay-free, single-stream graph used as the C1
witness. -/
def simpleScaleGraph : MediaGraph :=
  { inputs := [{ id := "a", source := .path "in.mp4" }]
    videoStreams := [{ inputRef := "a", filters := [.scale (some 640) none none none] }]
    audioStreams := []
    output := { destination := .path "out.mp4" }
    options := {} }

/-- Witness for C1: the routing theorem applied to a one-input,
no-overlay, single-stream graph, which takes the simple path. -/
theorem classifier_routing_witness :
    compile simpleScaleGraph = compileSimple simpleScaleGraph :=
  (classifier_routing simpleScaleGraph).2.1 (by
    simp only [complexCondition, simpleScaleGraph]
    push_neg
    refine ⟨by norm_num, ?_, by norm_num, by norm_num⟩
    rintro s hs f hf
    simp only [List.mem_singleton] at hs
    subst hs
    simp only [List.mem_singleton] at hf
    subst hf
    simp [VideoFilter.isOverlay])

/-- A graph whose only video stream references the non-existent input
"b"; used for claim C9. -/
def danglingRefGraph : MediaGraph :=
  { inputs := [{ id := "a", source := .path "in.mp4" }]
    videoStreams := [{ inputRef := "b", filters := [.fps 30 none] }]
    audioStreams := []
    output := { destination := .path "out.mp4" }
    options := {} }

/-- Claim C9: `getInputIndex` returns -1 (and raises nothing — it is
total) for any identifier matching no input, and the complex compiler run
on a graph whose video stream references a missing input silently embeds
the pad address `-1:v` in the filter-graph expression. -/
theorem missing_input_silent_minus_one :
    (∀ (g : MediaGraph) (id : String),
      (∀ i ∈ g.inputs, i.id ≠ id) → getInputIndex g id = -1) ∧
    compileComplex danglingRefGraph =
      ["-i", "in.mp4", "-filter_complex", "[-1:v]fps=30[v_out]",
       "-map", "[v_out]", "-an", "out.mp4"] := by
  constructor
  · intro g id h
    exact findIdxGo_none id g.inputs h 0
  · decide

/-- Witness for C9: the theorem applied to the dangling-reference graph
and the unmatched identifier "b". -/
theorem missing_input_silent_minus_one_witness :
    getInputIndex danglingRefGraph "b" = -1 :=
  missing_input_silent_minus_one.1 danglingRefGraph "b" (by decide)

/-- Claim C3 (amended): when every video and audio stream is disabled and
the output carries no video and no audio codec configuration, the compiled
vector contains the disable flags `-vn` and `-an`, the `-vf`/`-af`
sections and the `-filter_complex`/`-map` section are empty, and the codec
sections are exactly the disable flags (no codec block). -/
theorem all_disabled_emits_disable_flags (g : MediaGraph)
    (hv : ∀ s ∈ g.videoStreams, s.disabled = true)
    (ha : ∀ s ∈ g.audioStreams, s.disabled = true)
    (hov : g.output.video = none)
    (hoa : g.output.audio = none) :
    "-vn" ∈ compile g ∧ "-an" ∈ compile g ∧
    simpleVideoFilterArgs g = [] ∧ simpleAudioFilterArgs g = [] ∧
    complexFilterMapArgs g = [] ∧
    videoCodecArgs g = ["-vn"] ∧ audioCodecArgs g = ["-an"] := by
  have hvo : hasVideoOutput g = false := by
    simp only [hasVideoOutput, List.any_eq_false]
    intro s hs
    simp [hv s hs]
  have hao : hasAudioOutput g = false := by
    simp only [hasAudioOutput, List.any_eq_false]
    intro s hs
    simp [ha s hs]
  have h6 : videoCodecArgs g = ["-vn"] := by
    simp [videoCodecArgs, hov, hvo]
  have h7 : audioCodecArgs g = ["-an"] := by
    simp [audioCodecArgs, hoa, hao]
  have h3 : simpleVideoFilterArgs g = [] := by
    simp [simpleVideoFilterArgs, hvo]
  have h4 : simpleAudioFilterArgs g = [] := by
    simp [simpleAudioFilterArgs, hao]
  have h5 : complexFilterMapArgs g = [] := by
    simp [complexFilterMapArgs, complexVideoSection, complexAudioSection, hvo, hao]
  refine ⟨?_, ?_, h3, h4, h5, h6, h7⟩
  · cases hrc : requiresComplexFilter g <;>
      simp [compile, hrc, compileComplex, compileSimple, h6, h7]
  · cases hrc : requiresComplexFilter g <;>
      simp [compile, hrc, compileComplex, compileSimple, h6, h7]

/-- The all-disabled graph without codec configuration used as the C3
witness. -/
def allDisabledGraph : MediaGraph :=
  { inputs := [{ id := "a", source := .path "in.mp4" }]
    videoStreams := [{ inputRef := "a", filters := [], disabled := true }]
    audioStreams := [{ inputRef := "a", filters := [], disabled := true }]
    output := { destination := .path "out.mp4" }
    options := {} }

/-- Witness for C3: the theorem applied to an all-disabled graph. -/
theorem all_disabled_emits_disable_flags_witness :
    "-vn" ∈ compile allDisabledGraph ∧ "-an" ∈ compile allDisabledGraph ∧
    simpleVideoFilterArgs allDisabledGraph = [] ∧
    simpleAudioFilterArgs allDisabledGraph = [] ∧
    complexFilterMapArgs allDisabledGraph = [] ∧
    videoCodecArgs allDisabledGraph = ["-vn"] ∧
    audioCodecArgs allDisabledGraph = ["-an"] :=
  all_disabled_emits_disable_flags allDisabledGraph
    (by decide) (by decide) rfl rfl

/-- The all-disabled graph that still carries a video codec configuration,
refuting claim C3 as frozen. -/
def allDisabledCodecGraph : MediaGraph :=
  { inputs := [{ id := "a", source := .path "in.mp4" }]
    videoStreams := [{ inputRef := "a", filters := [], disabled := true }]
    audioStreams := [{ inputRef := "a", filters := [], disabled := true }]
    output := { destination := .path "out.mp4", video := some { codec := "h264" } }
    options := {} }

/-- Counterexample for C3 as frozen: with every stream disabled but a
video codec configuration present, the compiler emits the codec block and
no `-vn`. -/
theorem all_disabled_emits_disable_flags_counterexample :
    compile allDisabledCodecGraph =
      ["-i", "in.mp4", "-c:v", "libx264", "-an", "out.mp4"] ∧
    "-vn" ∉ compile allDisabledCodecGraph ∧
    "-c:v" ∈ compile allDisabledCodecGraph := by
  refine ⟨by decide, by decide, by decide⟩

/-- Claim C2 (amended): for every two-input graph whose selected (first
non-disabled) video stream belongs to the first input and carries exactly
one filter, an overlay of the second input at x=10, y=10, and in which no
enabled audio stream has filters, the complex compiler emits the adjacent
token run `-filter_complex [0:v][1:v]overlay=x=10:y=10[v_out] -map
[v_out]`. -/
theorem overlay_scenario_filtergraph (g : MediaGraph) (i0 i1 : MediaInput)
    (vs : VideoStream)
    (hin : g.inputs = [i0, i1])
    (hids : i0.id ≠ i1.id)
    (hfind : g.videoStreams.find? (fun s => !s.disabled) = some vs)
    (href : vs.inputRef = i0.id)
    (hfil : vs.filters = [.overlay i1.id (.num 10) (.num 10) false false])
    (haud : ∀ a ∈ g.audioStreams, (!a.disabled) = true → a.filters = []) :
    hasSegment ["-filter_complex", "[0:v][1:v]overlay=x=10:y=10[v_out]",
                "-map", "[v_out]"] (compileComplex g) := by
  have hvo : hasVideoOutput g = true := any_of_find? hfind
  have hidx0 : getInputIndex g i0.id = 0 := by
    simp [getInputIndex, hin, findIdxGo]
  have hidx1 : getInputIndex g i1.id = 1 := by
    simp [getInputIndex, hin, findIdxGo, hids]
  have hvsec : complexVideoSection g =
      (["[0:v][1:v]overlay=x=10:y=10[v_out]"], "v_out") := by
    have hovl : serializeVideoFilter
        (VideoFilter.overlay i1.id (Expr.num 10) (Expr.num 10) false false) =
        "overlay=x=10:y=10" := rfl
    unfold complexVideoSection
    rw [hvo, hfind]
    simp only [href, hidx0, hfil, buildVideoParts, hidx1, hovl]
    decide
  have hasec : (complexAudioSection g).1 = [] := by
    unfold complexAudioSection
    cases hao : hasAudioOutput g with
    | false => simp
    | true =>
      simp only [Bool.true_eq_false, if_true, if_false]
      cases hfa : g.audioStreams.find? (fun s => !s.disabled) with
      | none => simp
      | some a =>
        have hfl : a.filters = [] := by
          have hm := List.mem_of_find?_eq_some hfa
          have hp := List.find?_some hfa
          exact haud a hm (by simpa using hp)
        simp [hfl]
  have hcfm : ∃ rest, complexFilterMapArgs g =
      ["-filter_complex", "[0:v][1:v]overlay=x=10:y=10[v_out]",
       "-map", "[v_out]"] ++ rest := by
    unfold complexFilterMapArgs
    rw [hvsec]
    simp only [hasec, hvo, List.append_nil, joinSep, List.length_cons,
      List.length_nil]
    norm_num
    exact ⟨_, rfl⟩
  obtain ⟨rest, hcfm⟩ := hcfm
  refine ⟨globalArgs g.options ++ (g.inputs.map inputArgs).flatten,
          rest ++ videoCodecArgs g ++ audioCodecArgs g ++ metadataArgs g.output ++
            outputFlagArgs g.output ++ outputFormatArgs g.output ++
            [destToken g.output], ?_⟩
  simp only [compileComplex, hcfm, List.append_assoc]

/-- The two-input overlay graph of spec scenario 2 (no audio), used as
the C2 witness. -/
def overlayBaseGraph : MediaGraph :=
  { inputs := [{ id := "a", source := .path "base.mp4" },
               { id := "b", source := .path "logo.png" }]
    videoStreams := [{ inputRef := "a",
                       filters := [.overlay "b" (.num 10) (.num 10) false false] }]
    audioStreams := []
    output := { destination := .path "out.mp4" }
    options := {} }

/-- Witness for C2: the theorem applied to the two-input overlay graph. -/
theorem overlay_scenario_filtergraph_witness :
    hasSegment ["-filter_complex", "[0:v][1:v]overlay=x=10:y=10[v_out]",
                "-map", "[v_out]"] (compileComplex overlayBaseGraph) :=
  overlay_scenario_filtergraph overlayBaseGraph
    { id := "a", source := .path "base.mp4" }
    { id := "b", source := .path "logo.png" }
    { inputRef := "a", filters := [.overlay "b" (.num 10) (.num 10) false false] }
    rfl (by decide) rfl rfl rfl (by intro a ha _; simp [overlayBaseGraph] at ha)

/-- The same two-input overlay graph with an additional audio volume
filter, refuting claim C2 as frozen. -/
def overlayAudioGraph : MediaGraph :=
  { inputs := [{ id := "a", source := .path "base.mp4" },
               { id := "b", source := .path "logo.png" }]
    videoStreams := [{ inputRef := "a",
                       filters := [.overlay "b" (.num 10) (.num 10) false false] }]
    audioStreams := [{ inputRef := "a", filters := [.volume (.num 1) none] }]
    output := { destination := .path "out.mp4" }
    options := {} }

/-- Counterexample for C2 as frozen: with an audio filter present the
graph still satisfies the frozen claim's hypotheses, yet the emitted
filter-graph argument is the two-segment expression, so no token pair
`-filter_complex` followed by exactly the overlay expression occurs. -/
theorem overlay_scenario_filtergraph_counterexample :
    compileComplex overlayAudioGraph =
      ["-i", "base.mp4", "-i", "logo.png", "-filter_complex",
       "[0:v][1:v]overlay=x=10:y=10[v_out];[0:a]volume=1[a_out]",
       "-map", "[v_out]", "-map", "[a_out]", "out.mp4"] ∧
    ¬ hasSegment ["-filter_complex", "[0:v][1:v]overlay=x=10:y=10[v_out]"]
        (compileComplex overlayAudioGraph) := by
  constructor
  · decide
  · intro h
    have hs := (segTest_iff ["-filter_complex", "[0:v][1:v]overlay=x=10:y=10[v_out]"]
      (compileComplex overlayAudioGraph)).mpr h
    exact absurd hs (by decide)

end FfmpegTs
